import Mathlib

/-!
Shallow embedding of the adaptive Kalman-filter cursor decoder
(`Code/kalman.py`, `Code/cursor.py`).

Matrices are embedded as Mathlib matrices over ℚ (the Python code computes
with numpy float arrays; the algebraic identities under scrutiny are exact,
so an exact field is the honest carrier).  `np.linalg.pinv` is library code,
not repository code: it is embedded as an explicit function parameter
`pinv`, and where a claim needs the genuine Moore–Penrose pseudo-inverse we
characterise it by the four Penrose equations (`IsMPInv`, decidable on
concrete rational matrices) or, for 1×1 matrices, give it in closed form
(`pinv1`).
-/

namespace Capstone

open Matrix

/-- Rational matrices, the carrier for the numpy arrays of `kalman.py`. -/
abbrev Mat (m n : ℕ) : Type := Matrix (Fin m) (Fin n) ℚ

/-- The four Penrose equations: `Mp` is THE Moore–Penrose pseudo-inverse of
`M` iff they all hold.  Decidable on concrete rational matrices. -/
def IsMPInv {n : ℕ} (M Mp : Mat n n) : Prop :=
  M * Mp * M = M ∧ Mp * M * Mp = Mp ∧ (M * Mp)ᵀ = M * Mp ∧ (Mp * M)ᵀ = Mp * M

instance {n : ℕ} (M Mp : Mat n n) : Decidable (IsMPInv M Mp) := by
  unfold IsMPInv; infer_instance

/-- The genuine Moore–Penrose pseudo-inverse of a 1×1 matrix: invert the
entry when it is nonzero, else zero. -/
def pinv1 (M : Mat 1 1) : Mat 1 1 :=
  if M 0 0 = 0 then 0 else !![(M 0 0)⁻¹]

namespace KalmanFilter

/-- `KalmanFilter.num_states = 3` (`kalman.py:19`). -/
def num_states : ℕ := 3

/-- `a = 0.95`, the velocity decay constant (`kalman.py:22`). -/
def a : ℚ := 95 / 100

/-- `rho = 0.95`, SmoothBatch weighting parameter (`kalman.py:26`). -/
def rho : ℚ := 95 / 100

/-- `alpha = 0.999834979`, adaptive KF weighting parameter (`kalman.py:27`). -/
def alpha : ℚ := 999834979 / 1000000000

/-- `mu = 0.15`, adaptive step size (`kalman.py:28`). -/
def mu : ℚ := 15 / 100

/-- `BATCH_DURATION = 300` (`kalman.py:31`). -/
def BATCH_DURATION : ℕ := 300

/-- `SMOOTH_BATCH_DURATION = 80` (`kalman.py:32`). -/
def SMOOTH_BATCH_DURATION : ℕ := 80

/-- `A = [[a,0,0],[0,a,0],[0,0,1]]` (`kalman.py:34`). -/
def Amat : Mat 3 3 := !![a, 0, 0; 0, a, 0; 0, 0, 1]

/-- The mutable per-instance state of a `KalmanFilter` object, parameterised
by the number of sensor observations `S` (`trial.NUM_SENSORS`; `trial.py` is
not part of the sources, so `S` is kept abstract).  The Python attribute
`Pt`, created by `update_error` (`kalman.py:130`) and absent until that first
call, is an `Option`. -/
structure KFState (S : ℕ) where
  A : Mat 3 3
  W : Mat 3 3
  C : Mat S 3
  Q : Mat S S
  P : Mat 3 3
  K : Mat 3 S
  xt : Mat 3 1
  Pt : Option (Mat 3 3)
  algorithm : String
  batch_length : Option ℕ

/-- The initial `xt = [[0],[0],[1]]` column vector (`kalman.py:48`). -/
def xt0 : Mat 3 1 := !![0; 0; 1]

/-- `KalmanFilter.__init__(algorithm)` (`kalman.py:45-53`), embedded as an
`Except`-valued constructor: the Python constructor body has no failure
path, so every algorithm string yields `.ok`.  The class attributes `C` and
`Q` are allocated with `np.empty` (unspecified contents), so they are taken
as parameters; `A` and `W` keep their class-level values. -/
def init (S : ℕ) (C0 : Mat S 3) (Q0 : Mat S S) (algorithm : String) :
    Except String (KFState S) :=
  .ok
    { A := Amat
      W := 1
      C := C0
      Q := Q0
      P := 0
      K := 0
      xt := xt0
      Pt := none
      algorithm := algorithm
      batch_length :=
        if algorithm = "batch" then some BATCH_DURATION
        else if algorithm = "smooth_batch" then some SMOOTH_BATCH_DURATION
        else none }

/-- `center()` (`kalman.py:92-93`): reset `xt` to `[[0],[0],[1]]`; nothing
else is touched. -/
def center {S : ℕ} (st : KFState S) : KFState S :=
  { st with xt := xt0 }

/-- `time_update()` (`kalman.py:102-104`): `xt ← A·xt`,
`P ← A·(P·Aᵀ) + W`. -/
def time_update {S : ℕ} (st : KFState S) : KFState S :=
  { st with
    xt := st.A * st.xt
    P := st.A * (st.P * st.Aᵀ) + st.W }

/-- `gain()` (`kalman.py:113-117`): `ptc = P·Cᵀ`,
`K ← ptc · pinv(C·ptc + Q)`. -/
def gain {S : ℕ} (pinv : Mat S S → Mat S S) (st : KFState S) : KFState S :=
  let ptc := st.P * st.Cᵀ
  let sum := st.C * ptc + st.Q
  let inv := pinv sum
  { st with K := ptc * inv }

/-- `update_estimate(state)` (`kalman.py:120-123`):
`xt ← xt + K·(state − C·xt)`. -/
def update_estimate {S : ℕ} (st : KFState S) (state : Mat S 1) : KFState S :=
  let weighted_estimate := st.C * st.xt
  let residual := state - weighted_estimate
  { st with xt := st.xt + st.K * residual }

/-- `update_error()` (`kalman.py:126-130`): computes `(I − K·C)·P` but
assigns it to the attribute `Pt` (`self.Pt = ...`), leaving `P` itself
unchanged. -/
def update_error {S : ℕ} (st : KFState S) : KFState S :=
  let product := st.K * st.C
  let identity : Mat 3 3 := 1
  let diff := identity - product
  { st with Pt := some (diff * st.P) }

/-- `measurement_update(state)` (`kalman.py:107-110`): gain, then estimate
update, then error update. -/
def measurement_update {S : ℕ} (pinv : Mat S S → Mat S S) (st : KFState S)
    (state : Mat S 1) : KFState S :=
  update_error (update_estimate (gain pinv st) state)

/-- `predict(state)` (`kalman.py:96-99`): time update, measurement update,
return `xt[0:2]` together with the mutated object state. -/
def predict {S : ℕ} (pinv : Mat S S → Mat S S) (st : KFState S)
    (state : Mat S 1) : KFState S × Mat 2 1 :=
  let st1 := time_update st
  let st2 := measurement_update pinv st1 state
  (st2, st2.xt.submatrix (Fin.castLE (by omega)) id)

/-- `add_constant(x)` (`kalman.py:133-136`): append a row of ones. -/
def add_constant {m N : ℕ} (x : Mat m N) : Mat (m + 1) N :=
  Matrix.of fun i j => if h : (i : ℕ) < m then x ⟨i, h⟩ j else 1

/-- `MLE(Y, X)` (`kalman.py:139-155`): transpose both inputs, augment `X`
with a constant row, then `C = Yᵀ·X̂ᵀ·pinv(X̂·X̂ᵀ)` and
`Q = (Yᵀ − C·X̂)·(Yᵀ − C·X̂)ᵀ / N` where `N` is the column count of the
transposed `Y` (the number of samples).  A pure function of its inputs: it
reads and writes no filter state. -/
def MLE {S N : ℕ} (pinv : Mat 3 3 → Mat 3 3) (Y : Mat N S) (X : Mat N 2) :
    Mat S 3 × Mat S S :=
  let Yt := Yᵀ
  let Xh := add_constant Xᵀ
  let product := Xh * Xhᵀ
  let inverse := pinv product
  let C := Yt * Xhᵀ * inverse
  let difference := Yt - C * Xh
  let Q := ((N : ℚ))⁻¹ • (difference * differenceᵀ)
  (C, Q)

/-- `batch(Y, X)` (`kalman.py:159-160`): `C, Q ← MLE(Y, X)`. -/
def batch {S N : ℕ} (pinv : Mat 3 3 → Mat 3 3) (st : KFState S)
    (Y : Mat N S) (X : Mat N 2) : KFState S :=
  let CQ := MLE pinv Y X
  { st with C := CQ.1, Q := CQ.2 }

/-- `smooth_batch(Y, X)` (`kalman.py:179-182`): fresh MLE fit `(C, Q)`, then
`C ← (1−ρ)·C + ρ·C` and `Q ← (1−ρ)·Q + ρ·Q` — the blend is of the new fit
with itself. -/
def smooth_batch {S N : ℕ} (pinv : Mat 3 3 → Mat 3 3) (st : KFState S)
    (Y : Mat N S) (X : Mat N 2) : KFState S :=
  let CQ := MLE pinv Y X
  { st with
    C := (1 - rho) • CQ.1 + rho • CQ.1
    Q := (1 - rho) • CQ.2 + rho • CQ.2 }

/-- `adaptive(yt, xt)` (`kalman.py:163-176`): augment the 2-D target `xt`
with the constant row, take one gradient step on `C`, then update `Q` with
the residual computed from the already-updated `C`. -/
def adaptive {S : ℕ} (st : KFState S) (yt : Mat S 1) (xt : Mat 2 1) :
    KFState S :=
  let xth := add_constant xt
  let temp_C := st.C * xth - yt
  let temp_C2 := (mu • temp_C) * xthᵀ
  let C1 := st.C - temp_C2
  let temp_Q := yt - C1 * xth
  let Q1 := alpha • st.Q + (1 - alpha) • (temp_Q * temp_Qᵀ)
  { st with C := C1, Q := Q1 }

/-- Spec foil for the numerical-stability contrast (`spec.md` §4.2/§7: a
singular `X·Xᵀ` "must fall back to pseudo-inverse (never raise)"): the same
MLE computation with a direct inverse in place of `np.linalg.pinv`, failing
(`none`) exactly when `X̂·X̂ᵀ` is singular.  The inverse is the adjugate
formula, which agrees with the matrix inverse whenever the determinant is
nonzero.  This definition is NOT in the source; it renders the failure the
source avoids by calling `pinv`. -/
def MLE_direct {S N : ℕ} (Y : Mat N S) (X : Mat N 2) :
    Option (Mat S 3 × Mat S S) :=
  let Yt := Yᵀ
  let Xh := add_constant Xᵀ
  let product := Xh * Xhᵀ
  if product.det ≠ 0 then
    let inverse := (product.det)⁻¹ • product.adjugate
    let C := Yt * Xhᵀ * inverse
    let difference := Yt - C * Xh
    some (C, ((N : ℚ))⁻¹ • (difference * differenceᵀ))
  else none

/-- Spec foil, as `MLE_direct` but for the gain computation
(`kalman.py:113-117`): a direct inverse of the innovation covariance
`C·P·Cᵀ + Q`, failing (`none`) exactly when it is singular. -/
def gain_direct {S : ℕ} (st : KFState S) : Option (KFState S) :=
  let ptc := st.P * st.Cᵀ
  let sum := st.C * ptc + st.Q
  if sum.det ≠ 0 then
    some { st with K := ptc * ((sum.det)⁻¹ • sum.adjugate) }
  else none

/-- A freshly constructed estimator sharing `A`, `W`, `C`, `Q` (and the
mode bookkeeping) with `st`: `P`, `K`, `xt`, `Pt` as `__init__` leaves
them. -/
def freshFrom {S : ℕ} (st : KFState S) : KFState S :=
  { A := st.A, W := st.W, C := st.C, Q := st.Q, P := 0, K := 0,
    xt := xt0, Pt := none, algorithm := st.algorithm,
    batch_length := st.batch_length }

/-- Concrete single-sensor filter state: the source's `A`, `W = I` as a
stand-in for a fitted process noise, observation row `C = [1, 0, 0]`,
`Q = [1]`, and the constructor's `P = 0`, `K = 0`, `xt = [0,0,1]`. -/
def st0 : KFState 1 :=
  { A := Amat, W := 1, C := !![1, 0, 0], Q := 1, P := 0, K := 0,
    xt := xt0, Pt := none, algorithm := "batch", batch_length := some 300 }

/-- The zero observation (a zero-mean sample after standardization). -/
def obs0 : Mat 1 1 := 0

/-- Concrete single-sensor filter whose observation row has a nonzero bias
entry, `C = [1, 0, 1]`, so that a zero sample still yields a nonzero
innovation. -/
def stF : KFState 1 :=
  { A := Amat, W := 1, C := !![1, 0, 1], Q := 1, P := 0, K := 0,
    xt := xt0, Pt := none, algorithm := "batch", batch_length := some 300 }

/-- A nonzero observation used to drive one `predict` call. -/
def obs1 : Mat 1 1 := !![1]

/-- Rank-deficient single-sample target window: one sample, zero velocity;
the augmented Gram matrix `X̂·X̂ᵀ = diag(0,0,1)` is singular. -/
def Xw : Mat 1 2 := !![0, 0]

/-- The sensor window paired with `Xw`. -/
def Yw : Mat 1 1 := !![1]

/-- The genuine Moore–Penrose pseudo-inverse of `diag(0,0,1)` is itself;
this function returns it (checked against the Penrose equations in the
corresponding witness). -/
def pinvW : Mat 3 3 → Mat 3 3 := fun _ => !![0, 0, 0; 0, 0, 0; 0, 0, 1]

/-- Concrete single-sensor filter with `C = 0`, `Q = 0`, `P = 0`: its
innovation covariance `C·P·Cᵀ + Q = [0]` is singular. -/
def stZ : KFState 1 :=
  { A := Amat, W := 1, C := 0, Q := 0, P := 0, K := 0,
    xt := xt0, Pt := none, algorithm := "adaptive", batch_length := none }

/-- Concrete batch-mode filter with prior `C = 0`, `Q = [1]`. -/
def stB : KFState 1 :=
  { A := Amat, W := 1, C := 0, Q := 1, P := 0, K := 0,
    xt := xt0, Pt := none, algorithm := "batch", batch_length := some 300 }

/-- The state `center` produces from `stF` after one `predict` call, written
out explicitly: identical to `stF` except that the error covariance has
grown to `P = A·0·Aᵀ + W = I`. -/
def stC : KFState 1 :=
  { A := Amat, W := 1, C := !![1, 0, 1], Q := 1, P := 1, K := 0,
    xt := xt0, Pt := none, algorithm := "batch", batch_length := some 300 }

/-- A one-sample window (fewer than 2 samples): sensor reading `[1]`. -/
def Yw1 : Mat 1 1 := !![1]

/-- A one-sample window: target velocity `(1, 0)`; the augmented Gram
matrix is the rank-one `v·vᵀ` with `v = (1,0,1)`. -/
def Xw1 : Mat 1 2 := !![1, 0]

/-- The genuine Moore–Penrose pseudo-inverse of `v·vᵀ` for `v = (1,0,1)`,
namely `v·vᵀ/4` (checked against the Penrose equations in the
counterexample). -/
def pinvB : Mat 3 3 → Mat 3 3 :=
  fun _ => !![1/4, 0, 1/4; 0, 0, 0; 1/4, 0, 1/4]

end KalmanFilter

namespace Cursor

open KalmanFilter

/-- `Cursor.batch_update(start)` (`cursor.py:138-145`): slice the
accumulated rows from `start` into the sensor window (columns 0–21) and the
intended-velocity window (columns 26–27), then dispatch on the model's
algorithm tag; the window matrices are passed in directly here (the slicing
itself is dataframe plumbing).  There is no window-size check of any kind:
the fit runs for every window, and the trailing `print` fires
unconditionally. -/
def batch_update {S N : ℕ} (pinv : Mat 3 3 → Mat 3 3) (st : KFState S)
    (states : Mat N S) (intended_vel : Mat N 2) : KFState S :=
  if st.algorithm = "batch" then batch pinv st states intended_vel
  else if st.algorithm = "smooth_batch" then
    smooth_batch pinv st states intended_vel
  else st

/-- `Cursor.estimate_intention(predicted_velocity, target_pos)`
(`cursor.py:121-133`), with `self.position` passed explicitly:
`magnitude = √(vx² + vy²)`, `angle = atan2(target_y − y, target_x − x)`
(embedded as `Complex.arg` of the difference vector, which has exactly the
`atan2` branch behaviour, including `atan2 0 0 = 0`), and the result is
`(cos angle, sin angle)` scaled by `magnitude`. -/
noncomputable def estimate_intention (position : Fin 2 → ℝ)
    (predicted_velocity : Fin 2 → ℝ) (target_pos : Fin 2 → ℝ) : Fin 2 → ℝ :=
  let x_pos := position 0
  let y_pos := position 1
  let x_vel := predicted_velocity 0
  let y_vel := predicted_velocity 1
  let magnitude := Real.sqrt (x_vel ^ 2 + y_vel ^ 2)
  let x_diff := target_pos 0 - x_pos
  let y_diff := target_pos 1 - y_pos
  let angle := Complex.arg ⟨x_diff, y_diff⟩
  let x_unit := Real.cos angle
  let y_unit := Real.sin angle
  ![x_unit * magnitude, y_unit * magnitude]

end Cursor

namespace KalmanFilter

/-- The augmented matrix really is the input with a row of ones below it. -/
theorem add_constant_apply {m N : ℕ} (x : Mat m N) (i : Fin (m + 1)) (j : Fin N) :
    add_constant x i j = if h : (i : ℕ) < m then x ⟨i, h⟩ j else 1 := rfl

/-- C1: `predict` performs the time update `xt' = A·xt`, `P' = A·P·Aᵀ + W`,
computes the gain `K = P'·Cᵀ·(C·P'·Cᵀ + Q)⁺`, corrects the state to
`xt'' = xt' + K·(obs − C·xt')`, and returns exactly the first two components
of the corrected `xt''`. -/
theorem predict_two_phase {S : ℕ} (pinv : Mat S S → Mat S S) (st : KFState S)
    (obs : Mat S 1) :
    (predict pinv st obs).1.xt =
      st.A * st.xt +
        ((st.A * st.P * st.Aᵀ + st.W) * st.Cᵀ *
            pinv (st.C * (st.A * st.P * st.Aᵀ + st.W) * st.Cᵀ + st.Q)) *
          (obs - st.C * (st.A * st.xt)) ∧
    (predict pinv st obs).2 =
      ((predict pinv st obs).1.xt).submatrix (Fin.castLE (by omega)) id := by
  constructor
  · simp [predict, measurement_update, update_error, update_estimate, gain,
      time_update, Matrix.mul_assoc]
  · rfl

/-- C3: the smooth-batch update blends the fresh MLE fit with itself, so it
coincides with the plain batch update on every input: the previous `C`, `Q`
are discarded entirely. -/
theorem smooth_batch_eq_batch {S N : ℕ} (pinv : Mat 3 3 → Mat 3 3)
    (st : KFState S) (Y : Mat N S) (X : Mat N 2) :
    smooth_batch pinv st Y X = batch pinv st Y X := by
  have h : ∀ (m n : ℕ) (M : Mat m n), (1 - rho) • M + rho • M = M := by
    intro m n M
    rw [← add_smul]
    norm_num
  simp [smooth_batch, batch, h]

/-- C4: the adaptive update performs `C ← C − μ·(C·x̂ − y)·x̂ᵀ` and then
`Q ← α·Q + (1−α)·(y − C·x̂)·(y − C·x̂)ᵀ`, with the residual in the `Q`
update computed from the already-updated `C`. -/
theorem adaptive_spec {S : ℕ} (st : KFState S) (yt : Mat S 1) (xt : Mat 2 1) :
    (adaptive st yt xt).C =
      st.C - mu • ((st.C * add_constant xt - yt) * (add_constant xt)ᵀ) ∧
    (adaptive st yt xt).Q =
      alpha • st.Q + (1 - alpha) •
        ((yt - (adaptive st yt xt).C * add_constant xt) *
          (yt - (adaptive st yt xt).C * add_constant xt)ᵀ) := by
  refine ⟨?_, ?_⟩ <;> simp [adaptive, smul_mul_assoc]

/-- C5: `MLE` returns `C = Y'·X̂ᵀ·(X̂·X̂ᵀ)⁺` and
`Q = (Y' − C·X̂)·(Y' − C·X̂)ᵀ / N` for `Y'` the transposed sample matrix and
`X̂` the transposed target matrix with the constant row appended; it is a
pure function of `(Y, X)`, and the batch update writes exactly this result
into `C`, `Q` regardless of the filter's stored state. -/
theorem MLE_spec {S N : ℕ} (pinv : Mat 3 3 → Mat 3 3) (Y : Mat N S)
    (X : Mat N 2) :
    (MLE pinv Y X).1 =
      Yᵀ * (add_constant Xᵀ)ᵀ * pinv (add_constant Xᵀ * (add_constant Xᵀ)ᵀ) ∧
    (MLE pinv Y X).2 =
      ((N : ℚ))⁻¹ •
        ((Yᵀ - (MLE pinv Y X).1 * add_constant Xᵀ) *
          (Yᵀ - (MLE pinv Y X).1 * add_constant Xᵀ)ᵀ) ∧
    ∀ st st' : KFState S,
      (batch pinv st Y X).C = (batch pinv st' Y X).C ∧
      (batch pinv st Y X).Q = (batch pinv st' Y X).Q := by
  refine ⟨rfl, rfl, fun st st' => ⟨rfl, rfl⟩⟩

/-- The velocity returned by `predict` depends only on the `A`, `W`, `C`,
`Q`, `P`, `xt` fields of the state (the stored `K` and `Pt` are overwritten
before use, and the mode bookkeeping is never read). -/
theorem predict_output_congr {S : ℕ} (pinv : Mat S S → Mat S S)
    (s t : KFState S) (obs : Mat S 1) (hA : s.A = t.A) (hW : s.W = t.W)
    (hC : s.C = t.C) (hQ : s.Q = t.Q) (hP : s.P = t.P) (hx : s.xt = t.xt) :
    (predict pinv s obs).2 = (predict pinv t obs).2 := by
  simp [predict, measurement_update, update_error, update_estimate, gain,
    time_update, hA, hW, hC, hQ, hP, hx]

/-- C2: `update_error` (`kalman.py:130`) assigns `(I − K·C)·P` to the fresh
attribute `Pt` instead of `P`, so `predict` leaves the object's `P` at the
time-update value `A·P_prev·Aᵀ + W`; on the concrete single-sensor filter
`st0` with observation `[0]`, the `P` field after `predict` is the identity
while the value the claim (and the spec) expects, `(I−K·C)·(A·P_prev·Aᵀ+W)
= diag(1/2,1,1)`, sits unused in `Pt`. -/
theorem update_error_writes_Pt_not_P :
    (∀ (S : ℕ) (st : KFState S),
      (update_error st).P = st.P ∧
      (update_error st).Pt = some ((1 - st.K * st.C) * st.P)) ∧
    (predict pinv1 st0 obs0).1.P = st0.A * st0.P * st0.Aᵀ + st0.W ∧
    (predict pinv1 st0 obs0).1.P = 1 ∧
    (predict pinv1 st0 obs0).1.Pt = some !![1/2, 0, 0; 0, 1, 0; 0, 0, 1] ∧
    (predict pinv1 st0 obs0).1.P ≠ !![1/2, 0, 0; 0, 1, 0; 0, 0, 1] := by
  refine ⟨fun S st => ⟨rfl, rfl⟩, ?_, ?_, ?_, ?_⟩
  · simp [predict, measurement_update, update_error, update_estimate, gain,
      time_update, st0, Matrix.mul_assoc]
  · simp [predict, measurement_update, update_error, update_estimate, gain,
      time_update, st0]
  · simp only [predict, measurement_update, update_error, update_estimate,
      gain, time_update, Option.some.injEq]
    ext i j
    fin_cases i <;> fin_cases j <;>
      norm_num [st0, obs0, pinv1, Amat, xt0, a, Matrix.mul_apply,
        Fin.sum_univ_succ, Matrix.vecHead, Matrix.vecTail, Matrix.one_apply,
        Fin.ext_iff]
  · intro h
    have hP : (predict pinv1 st0 obs0).1.P = 1 := by
      simp [predict, measurement_update, update_error, update_estimate, gain,
        time_update, st0]
    rw [hP] at h
    have h00 : (1 : Mat 3 3) 0 0 = !![(1:ℚ)/2, 0, 0; 0, 1, 0; 0, 0, 1] 0 0 := by
      rw [h]
    norm_num [Matrix.one_apply] at h00

/-- C6 counterexample: the estimator `stF` after one `predict` call has
accumulated a nonzero `P`; `center()` resets only `xt`, so the next
`predict` on the zero-mean sample `[0]` returns velocity `−761/1961` in the
first component, while a freshly constructed estimator with the same `A`,
`W`, `C`, `Q` returns `−1/3` on that same sample. -/
theorem center_not_fresh_counterexample :
    (predict pinv1 (center (predict pinv1 stF obs1).1) obs0).2 0 0 =
      -761 / 1961 ∧
    (predict pinv1 (freshFrom stF) obs0).2 0 0 = -1 / 3 ∧
    (predict pinv1 (center (predict pinv1 stF obs1).1) obs0).2 ≠
      (predict pinv1 (freshFrom stF) obs0).2 := by
  have hP : (center (predict pinv1 stF obs1).1).P = stC.P := by
    simp [predict, measurement_update, update_error, update_estimate, gain,
      time_update, center, stF, stC]
  have hc := predict_output_congr pinv1 (center (predict pinv1 stF obs1).1)
    stC obs0 rfl rfl rfl rfl hP rfl
  have h1 : (predict pinv1 (center (predict pinv1 stF obs1).1) obs0).2 0 0 =
      -761 / 1961 := by
    rw [hc]
    norm_num [predict, measurement_update, update_error, update_estimate,
      gain, time_update, stC, obs0, pinv1, Amat, xt0, a,
      Matrix.mul_apply, Fin.sum_univ_succ, Matrix.vecHead, Matrix.vecTail,
      Matrix.one_apply, Fin.ext_iff, Matrix.submatrix_apply, Fin.castLE,
      Matrix.vecMul, Matrix.dotProduct, Matrix.smul_apply, Pi.smul_apply,
      Matrix.add_apply, Matrix.of_apply, Matrix.cons_val', Matrix.head_cons,
      Matrix.empty_val', Matrix.cons_val_zero, Matrix.cons_val_one,
      Matrix.transpose_apply, smul_eq_mul]
  have h2 : (predict pinv1 (freshFrom stF) obs0).2 0 0 = -1 / 3 := by
    norm_num [predict, measurement_update, update_error, update_estimate,
      gain, time_update, freshFrom, stF, obs0, pinv1, Amat, xt0, a,
      Matrix.mul_apply, Fin.sum_univ_succ, Matrix.vecHead, Matrix.vecTail,
      Matrix.one_apply, Fin.ext_iff, Matrix.submatrix_apply, Fin.castLE,
      Matrix.vecMul, Matrix.dotProduct, Matrix.smul_apply, Pi.smul_apply,
      Matrix.add_apply, Matrix.of_apply, Matrix.cons_val', Matrix.head_cons,
      Matrix.empty_val', Matrix.cons_val_zero, Matrix.cons_val_one,
      Matrix.transpose_apply, smul_eq_mul]
  refine ⟨h1, h2, fun h => ?_⟩
  rw [h, h2] at h1
  norm_num at h1

/-- C6 amended: `center()` resets `xt` to the constructor's initial state
and leaves `P` untouched, so `reset()` followed by `predict()` reproduces
the freshly constructed estimator's output exactly when the stored error
covariance still equals the fresh estimator's zero covariance; then the two
states agree on every field `predict` reads, for any sample. -/
theorem center_then_predict_eq_fresh {S : ℕ} (pinv : Mat S S → Mat S S)
    (st : KFState S) (obs : Mat S 1) (h : st.P = 0) :
    (predict pinv (center st) obs).2 = (predict pinv (freshFrom st) obs).2 :=
  predict_output_congr pinv (center st) (freshFrom st) obs rfl rfl rfl rfl h
    rfl

/-- C6 amended, witness: the fresh-state filter `stF` has `P = 0`, and
centering it then predicting on the sample `[5]` matches the freshly
constructed copy. -/
theorem center_then_predict_eq_fresh_witness :
    stF.P = 0 ∧
    (predict pinv1 (center stF) !![5]).2 =
      (predict pinv1 (freshFrom stF) !![5]).2 :=
  ⟨rfl, center_then_predict_eq_fresh pinv1 stF !![5] rfl⟩

/-- C7: both pseudo-inverse call sites are total.  Whenever the function
passed for `np.linalg.pinv` returns a genuine Moore–Penrose pseudo-inverse
(the four Penrose equations) of a *singular* Gram matrix `X̂·X̂ᵀ`, the MLE
fit still completes and returns the closed-form `C`, `Q` — while the
direct-inverse foil fails on that same input; likewise for a singular
innovation covariance `C·P·Cᵀ + Q` in the gain computation.  (In this
rational embedding every produced entry is a rational number, the analogue
of "only finite values".) -/
theorem pinv_never_fails :
    (∀ (S N : ℕ) (Y : Mat N S) (X : Mat N 2) (pinv : Mat 3 3 → Mat 3 3),
      IsMPInv (add_constant Xᵀ * (add_constant Xᵀ)ᵀ)
          (pinv (add_constant Xᵀ * (add_constant Xᵀ)ᵀ)) →
      (add_constant Xᵀ * (add_constant Xᵀ)ᵀ).det = 0 →
      MLE_direct Y X = none ∧
      MLE pinv Y X =
        (Yᵀ * (add_constant Xᵀ)ᵀ * pinv (add_constant Xᵀ * (add_constant Xᵀ)ᵀ),
         ((N : ℚ))⁻¹ •
           ((Yᵀ - Yᵀ * (add_constant Xᵀ)ᵀ *
               pinv (add_constant Xᵀ * (add_constant Xᵀ)ᵀ) * add_constant Xᵀ) *
            (Yᵀ - Yᵀ * (add_constant Xᵀ)ᵀ *
               pinv (add_constant Xᵀ * (add_constant Xᵀ)ᵀ) * add_constant Xᵀ)ᵀ))) ∧
    (∀ (S : ℕ) (st : KFState S) (pinv : Mat S S → Mat S S),
      IsMPInv (st.C * (st.P * st.Cᵀ) + st.Q)
          (pinv (st.C * (st.P * st.Cᵀ) + st.Q)) →
      (st.C * (st.P * st.Cᵀ) + st.Q).det = 0 →
      gain_direct st = none ∧
      (gain pinv st).K = st.P * st.Cᵀ * pinv (st.C * (st.P * st.Cᵀ) + st.Q)) := by
  constructor
  · intro S N Y X pinv _ hdet
    exact ⟨by simp [MLE_direct, hdet], rfl⟩
  · intro S st pinv _ hdet
    exact ⟨by simp [gain_direct, hdet], rfl⟩

/-- C7 witness: the one-sample window `(Yw, Xw)` has the rank-deficient Gram
matrix `diag(0,0,1)` (a target matrix with fewer independent columns than
rows), whose Moore–Penrose pseudo-inverse is itself; the filter `stZ` has
the singular innovation covariance `[0]`, whose pseudo-inverse is `[0]`. -/
theorem pinv_never_fails_witness :
    MLE_direct Yw Xw = none ∧ gain_direct stZ = none ∧
    (gain pinv1 stZ).K =
      stZ.P * stZ.Cᵀ * pinv1 (stZ.C * (stZ.P * stZ.Cᵀ) + stZ.Q) := by
  have hmp1 : IsMPInv (add_constant Xwᵀ * (add_constant Xwᵀ)ᵀ)
      (pinvW (add_constant Xwᵀ * (add_constant Xwᵀ)ᵀ)) := by
    refine ⟨?_, ?_, ?_, ?_⟩ <;>
      · ext i j
        fin_cases i <;> fin_cases j <;>
          norm_num [pinvW, Xw, add_constant, Matrix.mul_apply,
            Fin.sum_univ_succ, Matrix.transpose_apply, Matrix.of_apply,
            Matrix.vecHead, Matrix.vecTail, Fin.ext_iff, Matrix.vecMul,
            Matrix.dotProduct, Matrix.smul_apply, Pi.smul_apply,
            Matrix.add_apply, Matrix.cons_val', Matrix.head_cons,
            Matrix.empty_val', Matrix.cons_val_zero, Matrix.cons_val_one,
            Matrix.one_apply, smul_eq_mul]
  have hdet1 : (add_constant Xwᵀ * (add_constant Xwᵀ)ᵀ).det = 0 := by
    rw [Matrix.det_fin_three]
    norm_num [Xw, add_constant, Matrix.mul_apply,
      Fin.sum_univ_succ, Matrix.transpose_apply, Matrix.of_apply,
      Matrix.vecHead, Matrix.vecTail, Fin.ext_iff, Matrix.vecMul,
      Matrix.dotProduct, Matrix.smul_apply, Pi.smul_apply,
      Matrix.add_apply, Matrix.cons_val', Matrix.head_cons,
      Matrix.empty_val', Matrix.cons_val_zero, Matrix.cons_val_one,
      Matrix.one_apply, smul_eq_mul]
  have hmp2 : IsMPInv (stZ.C * (stZ.P * stZ.Cᵀ) + stZ.Q)
      (pinv1 (stZ.C * (stZ.P * stZ.Cᵀ) + stZ.Q)) := by
    refine ⟨?_, ?_, ?_, ?_⟩ <;>
      · ext i j
        fin_cases i
        fin_cases j
        norm_num [stZ, pinv1, Matrix.mul_apply,
            Fin.sum_univ_succ, Matrix.transpose_apply, Matrix.of_apply,
            Matrix.vecHead, Matrix.vecTail, Fin.ext_iff, Matrix.vecMul,
            Matrix.dotProduct, Matrix.smul_apply, Pi.smul_apply,
            Matrix.add_apply, Matrix.cons_val', Matrix.head_cons,
            Matrix.empty_val', Matrix.cons_val_zero, Matrix.cons_val_one,
            Matrix.one_apply, smul_eq_mul]
  have hdet2 : (stZ.C * (stZ.P * stZ.Cᵀ) + stZ.Q).det = 0 := by
    rw [Matrix.det_fin_one]
    norm_num [stZ, Matrix.mul_apply,
      Fin.sum_univ_succ, Matrix.transpose_apply, Matrix.of_apply,
      Matrix.vecHead, Matrix.vecTail, Fin.ext_iff, Matrix.vecMul,
      Matrix.dotProduct, Matrix.smul_apply, Pi.smul_apply,
      Matrix.add_apply, Matrix.cons_val', Matrix.head_cons,
      Matrix.empty_val', Matrix.cons_val_zero, Matrix.cons_val_one,
      Matrix.one_apply, smul_eq_mul]
  obtain ⟨ha, _⟩ := pinv_never_fails.1 1 1 Yw Xw pinvW hmp1 hdet1
  obtain ⟨hc, hd⟩ := pinv_never_fails.2 1 stZ pinv1 hmp2 hdet2
  exact ⟨ha, hc, hd⟩

/-- C9 counterexample: constructing with the unknown update-mode tag
`"bogus"` does not fail — the constructor returns a fully formed state
with the tag stored verbatim and `batch_length` left unset. -/
theorem init_accepts_unknown_tag :
    "bogus" ≠ "batch" ∧ "bogus" ≠ "smooth_batch" ∧ "bogus" ≠ "adaptive" ∧
    (init 1 0 1 "bogus").isOk = true ∧
    (init 1 0 1 "bogus").toOption.map KFState.batch_length = some none ∧
    (init 1 0 1 "bogus").toOption.map KFState.algorithm = some "bogus" := by
  refine ⟨by decide, by decide, by decide, rfl, ?_, ?_⟩ <;>
    simp [init, Except.toOption]

/-- C9 amended: the constructor accepts every update-mode identifier.
Construction always succeeds, the tag is stored verbatim, `'batch'` and
`'smooth_batch'` set the batch length to their durations, and any other tag
merely leaves `batch_length` unset — no rejection happens at construction
time. -/
theorem init_total {S : ℕ} (C0 : Mat S 3) (Q0 : Mat S S) (alg : String) :
    ∃ st : KFState S, init S C0 Q0 alg = .ok st ∧
      st.algorithm = alg ∧ st.P = 0 ∧ st.K = 0 ∧ st.xt = xt0 ∧
      st.batch_length =
        (if alg = "batch" then some BATCH_DURATION
         else if alg = "smooth_batch" then some SMOOTH_BATCH_DURATION
         else none) :=
  ⟨_, rfl, rfl, rfl, rfl, rfl, rfl⟩

end KalmanFilter

namespace Cursor

open KalmanFilter

/-- The augmented one-sample target window as a literal column. -/
theorem add_constant_Xw1 : add_constant (Xw1ᵀ) = !![1; 0; 1] := by
  ext i j
  fin_cases i <;> fin_cases j <;>
    norm_num [add_constant, Xw1, Matrix.transpose_apply, Matrix.of_apply]

/-- On the one-sample window, the batch fit replaces `C` with
`[1/2, 0, 1/2]`. -/
theorem batch_C_on_one_sample : (batch pinvB stB Yw1 Xw1).C = !![1/2, 0, 1/2] := by
  have hC1 : (batch pinvB stB Yw1 Xw1).C =
      Yw1ᵀ * (add_constant Xw1ᵀ)ᵀ *
        pinvB (add_constant Xw1ᵀ * (add_constant Xw1ᵀ)ᵀ) := rfl
  rw [hC1, add_constant_Xw1]
  ext i j
  fin_cases i
  fin_cases j <;>
    norm_num [Yw1, pinvB, Matrix.mul_apply, Fin.sum_univ_succ,
      Matrix.transpose_apply, Matrix.vecHead, Matrix.vecTail, Fin.ext_iff]

/-- On the one-sample window, the batch fit replaces `Q` with the zero
matrix (the single sample is fit exactly). -/
theorem batch_Q_on_one_sample : (batch pinvB stB Yw1 Xw1).Q = 0 := by
  have hQ1 : (batch pinvB stB Yw1 Xw1).Q =
      ((1 : ℚ))⁻¹ •
        ((Yw1ᵀ - (batch pinvB stB Yw1 Xw1).C * add_constant Xw1ᵀ) *
          (Yw1ᵀ - (batch pinvB stB Yw1 Xw1).C * add_constant Xw1ᵀ)ᵀ) := rfl
  rw [hQ1, batch_C_on_one_sample, add_constant_Xw1]
  ext i j
  fin_cases i
  fin_cases j
  norm_num [Yw1, Matrix.mul_apply, Fin.sum_univ_succ,
      Matrix.transpose_apply, Matrix.vecHead, Matrix.vecTail, Fin.ext_iff,
      Matrix.smul_apply, Matrix.sub_apply, smul_eq_mul]

/-- On the batch-mode filter `stB`, `batch_update` dispatches to the plain
batch fit. -/
theorem batch_update_stB :
    batch_update pinvB stB Yw1 Xw1 = batch pinvB stB Yw1 Xw1 := by
  simp [batch_update, stB]

/-- C8 counterexample: a batch cycle over a window with a single sample
(fewer than 2) is *not* skipped: `batch_update` runs the MLE fit (through
the genuine Moore–Penrose pseudo-inverse of the rank-one Gram matrix,
checked by the Penrose equations) and replaces both prior parameters —
`C = 0` becomes `[1/2, 0, 1/2]` and `Q = [1]` becomes `[0]`. -/
theorem batch_update_no_skip_counterexample :
    IsMPInv (add_constant Xw1ᵀ * (add_constant Xw1ᵀ)ᵀ)
        (pinvB (add_constant Xw1ᵀ * (add_constant Xw1ᵀ)ᵀ)) ∧
    stB.algorithm = "batch" ∧
    (batch_update pinvB stB Yw1 Xw1).C = !![1/2, 0, 1/2] ∧
    (batch_update pinvB stB Yw1 Xw1).C ≠ stB.C ∧
    (batch_update pinvB stB Yw1 Xw1).Q = 0 ∧
    (batch_update pinvB stB Yw1 Xw1).Q ≠ stB.Q := by
  have hC : (batch_update pinvB stB Yw1 Xw1).C = !![1/2, 0, 1/2] := by
    rw [batch_update_stB, batch_C_on_one_sample]
  have hQ : (batch_update pinvB stB Yw1 Xw1).Q = 0 := by
    rw [batch_update_stB, batch_Q_on_one_sample]
  have hmp : IsMPInv (add_constant Xw1ᵀ * (add_constant Xw1ᵀ)ᵀ)
      (pinvB (add_constant Xw1ᵀ * (add_constant Xw1ᵀ)ᵀ)) := by
    rw [add_constant_Xw1]
    refine ⟨?_, ?_, ?_, ?_⟩ <;>
      · ext i j
        fin_cases i <;> fin_cases j <;>
          norm_num [pinvB, Matrix.mul_apply, Fin.sum_univ_succ,
            Matrix.transpose_apply, Matrix.vecHead, Matrix.vecTail,
            Fin.ext_iff]
  refine ⟨hmp, rfl, hC, ?_, hQ, ?_⟩
  · intro h
    rw [hC] at h
    have h00 : (!![(1:ℚ)/2, 0, 1/2] : Mat 1 3) 0 0 = stB.C 0 0 := by rw [h]
    norm_num [stB] at h00
  · intro h
    rw [hQ] at h
    have h00 : (0 : Mat 1 1) 0 0 = stB.Q 0 0 := by rw [h]
    norm_num [stB, Matrix.one_apply] at h00

/-- C8 amended: `batch_update` never checks the window size.  For every
window — including those with fewer than 2 samples — it dispatches purely
on the algorithm tag: the batch and smooth-batch fits run unconditionally
(replacing the prior `C`, `Q` with the fresh MLE result), and only an
unmatched tag leaves the state untouched.  No warning path exists. -/
theorem batch_update_always_fits {S N : ℕ} (pinv : Mat 3 3 → Mat 3 3)
    (st : KFState S) (Y : Mat N S) (X : Mat N 2) :
    (st.algorithm = "batch" →
      batch_update pinv st Y X = batch pinv st Y X) ∧
    (st.algorithm = "smooth_batch" →
      batch_update pinv st Y X = smooth_batch pinv st Y X) ∧
    (st.algorithm ≠ "batch" → st.algorithm ≠ "smooth_batch" →
      batch_update pinv st Y X = st) := by
  refine ⟨fun h => ?_, fun h => ?_, fun h1 h2 => ?_⟩
  · simp [batch_update, h]
  · simp [batch_update, h]
  · simp [batch_update, h1, h2]

/-- C8 amended, witness: on the batch-mode filter `stB` with the one-sample
window, the dispatch hypothesis holds and the fit runs. -/
theorem batch_update_always_fits_witness :
    stB.algorithm = "batch" ∧
    batch_update pinvB stB Yw1 Xw1 = batch pinvB stB Yw1 Xw1 :=
  ⟨rfl, (batch_update_always_fits pinvB stB Yw1 Xw1).1 rfl⟩

/-- C10: the intention estimate is the unit vector toward the goal (the
`atan2` direction of `goal − position`), scaled by the Euclidean magnitude
of the predicted velocity: whenever the goal offset is nonzero the output
is `‖v‖ · (goal − position)/‖goal − position‖`; a zero predicted velocity
yields the zero vector; and the spec's concrete case — position `[0,0]`,
goal `[1,0]`, predicted velocity `[0,3]` — yields exactly `[3,0]`. -/
theorem estimate_intention_spec :
    (∀ (pos v goal : Fin 2 → ℝ),
      (⟨goal 0 - pos 0, goal 1 - pos 1⟩ : ℂ) ≠ 0 →
      estimate_intention pos v goal = fun i =>
        Real.sqrt ((v 0) ^ 2 + (v 1) ^ 2) *
          ((goal i - pos i) /
            Real.sqrt ((goal 0 - pos 0) ^ 2 + (goal 1 - pos 1) ^ 2))) ∧
    (∀ pos goal : Fin 2 → ℝ,
      estimate_intention pos ![0, 0] goal = ![0, 0]) ∧
    estimate_intention ![0, 0] ![0, 3] ![1, 0] = ![3, 0] := by
  refine ⟨?_, ?_, ?_⟩
  · intro pos v goal hz
    funext i
    fin_cases i
    · simp only [estimate_intention, Fin.mk_zero, Fin.mk_one,
        Matrix.cons_val_zero]
      rw [Complex.cos_arg hz]
      simp only [Complex.abs_apply, Complex.normSq_mk]
      rw [show (goal 0 - pos 0) * (goal 0 - pos 0) +
            (goal 1 - pos 1) * (goal 1 - pos 1) =
          (goal 0 - pos 0) ^ 2 + (goal 1 - pos 1) ^ 2 from by ring]
      ring
    · simp only [estimate_intention, Fin.mk_zero, Fin.mk_one,
        Matrix.cons_val_one, Matrix.head_cons]
      rw [Complex.sin_arg]
      simp only [Complex.abs_apply, Complex.normSq_mk]
      rw [show (goal 0 - pos 0) * (goal 0 - pos 0) +
            (goal 1 - pos 1) * (goal 1 - pos 1) =
          (goal 0 - pos 0) ^ 2 + (goal 1 - pos 1) ^ 2 from by ring]
      ring
  · intro pos goal
    funext i
    fin_cases i <;>
      norm_num [estimate_intention, Real.sqrt_zero]
  · have harg : (⟨(1:ℝ), (0:ℝ)⟩ : ℂ) = 1 := by
      simp [Complex.ext_iff]
    have h9 : Real.sqrt (9:ℝ) = 3 := by
      rw [show (9:ℝ) = 3 ^ 2 by norm_num,
        Real.sqrt_sq (by norm_num : (0:ℝ) ≤ 3)]
    funext i
    fin_cases i <;>
      norm_num [estimate_intention, harg, h9, Complex.arg_one]

/-- C10 witness: the nonzero-offset case at position `[0,0]`, predicted
velocity `[1,1]`, goal `[0,1]`. -/
theorem estimate_intention_spec_witness :
    (⟨(![0, 1] : Fin 2 → ℝ) 0 - (![0, 0] : Fin 2 → ℝ) 0,
        (![0, 1] : Fin 2 → ℝ) 1 - (![0, 0] : Fin 2 → ℝ) 1⟩ : ℂ) ≠ 0 ∧
    estimate_intention ![0, 0] ![1, 1] ![0, 1] = fun i =>
      Real.sqrt (((![1, 1] : Fin 2 → ℝ) 0) ^ 2 +
          ((![1, 1] : Fin 2 → ℝ) 1) ^ 2) *
        (((![0, 1] : Fin 2 → ℝ) i - (![0, 0] : Fin 2 → ℝ) i) /
          Real.sqrt (((![0, 1] : Fin 2 → ℝ) 0 - (![0, 0] : Fin 2 → ℝ) 0) ^ 2 +
            ((![0, 1] : Fin 2 → ℝ) 1 - (![0, 0] : Fin 2 → ℝ) 1) ^ 2)) := by
  have hz : (⟨(![0, 1] : Fin 2 → ℝ) 0 - (![0, 0] : Fin 2 → ℝ) 0,
      (![0, 1] : Fin 2 → ℝ) 1 - (![0, 0] : Fin 2 → ℝ) 1⟩ : ℂ) ≠ 0 := by
    simp [Complex.ext_iff]
  exact ⟨hz, estimate_intention_spec.1 ![0, 0] ![1, 1] ![0, 1] hz⟩

end Cursor

end Capstone
